import Mathlib

/-!
Verification of the email-guessing pipeline in `src/app.py`.

Strings are modelled as `List Char` (Python `str`).  The network is modelled
by explicit environment functions: a DNS environment maps a domain to the
outcome of `dns.resolver.resolve(domain, 'MX')`, and an SMTP environment maps
a mail-exchanger host and a probed address to the outcomes of the individual
steps of one SMTP session.  Python exceptions that escape a function are
modelled with `Except`; exceptions swallowed by a `try/except` are folded
away exactly where the code folds them away.
-/

/-- Python strings. -/
abbrev Str := List Char

/-- Exceptions that can escape the modelled functions: `IndexError` from
`first[0]` in `generate_email_formats`, and an uncaught DNS-layer exception
(for example `dns.resolver.NoNameservers`) escaping `is_domain_valid`. -/
inductive PyErr where
  | indexError
  | dnsError
  deriving DecidableEq

/-- Outcome of one call `dns.resolver.resolve(domain, 'MX')`: either an
answer carrying the exchange hosts in resolver order, or one of the
exceptions the resolver can raise.  `noAnswer`, `nxdomain` and
`lifetimeTimeout` are the three exception classes named in the `except`
clause of `is_domain_valid`; `otherError` stands for any other DNS-layer
exception (such as `dns.resolver.NoNameservers`). -/
inductive DnsOutcome where
  | records (mxs : List Str)
  | noAnswer
  | nxdomain
  | lifetimeTimeout
  | otherError
  deriving DecidableEq

/-- A DNS environment: what `dns.resolver.resolve(d, 'MX')` does for each
domain `d` during the run. -/
abbrev DnsEnv := Str → DnsOutcome

/-- Outcomes of the steps of one SMTP session against a given host probing a
given address: whether `connect`, `helo` and `mail` succeed, what `rcpt`
does (`none` models an exception, `some code` the returned reply code), and
whether `quit` succeeds. -/
structure SmtpSession where
  connectOk : Bool
  heloOk : Bool
  mailOk : Bool
  rcptResult : Option Nat
  quitOk : Bool
  deriving DecidableEq

/-- An SMTP environment: the session outcomes for each (host, address) pair. -/
abbrev SmtpEnv := Str → Str → SmtpSession

/-- Python `s.split(sep)` for a single-character separator `sep`:
`"a@b@c".split("@") == ["a", "b", "c"]`, `"".split("@") == [""]`. -/
def pySplit (sep : Char) : Str → List Str
  | [] => [[]]
  | c :: cs =>
    if c = sep then [] :: pySplit sep cs
    else
      match pySplit sep cs with
      | h :: t => (c :: h) :: t
      | [] => [[c]]

/-- `extract_domain` (src/app.py lines 7-12): `email.split("@")[1]`, with the
`IndexError` of a missing second field caught and turned into `None`. -/
def extract_domain (email : Str) : Option Str :=
  (pySplit '@' email)[1]?

/-- `is_domain_valid` (src/app.py lines 14-20): resolve MX records, return
whether the answer is non-empty; `NoAnswer`, `NXDOMAIN` and
`LifetimeTimeout` are caught and yield `False`; any other exception
escapes. -/
def is_domain_valid (dns : DnsEnv) (domain : Str) : Except PyErr Bool :=
  match dns domain with
  | .records mxs => .ok (!mxs.isEmpty)
  | .noAnswer => .ok false
  | .nxdomain => .ok false
  | .lifetimeTimeout => .ok false
  | .otherError => .error .dnsError

/-- `is_email_valid` (src/app.py lines 22-38): resolve MX, take the first
exchange, run connect / helo / mail / rcpt / quit, then return
`code == 250`; every exception anywhere in the body is caught by the
blanket `except Exception` and yields `False`.  Note that `server.quit()`
runs before the `return`, so a failing `quit` also yields `False`. -/
def is_email_valid (dns : DnsEnv) (smtp : SmtpEnv) (email domain : Str) : Bool :=
  match dns domain with
  | .records (mx :: _) =>
    let s := smtp mx email
    if s.connectOk && s.heloOk && s.mailOk then
      match s.rcptResult with
      | some code => s.quitOk && (code == 250)
      | none => false
    else false
  | _ => false

/-- `generate_email_formats` (src/app.py lines 40-49): the five format
strings, built in order; `first[0]` raises `IndexError` when `first` is
empty, so the whole call raises then (modelled as `none`). -/
def generate_email_formats (first last domain : Str) : Option (List Str) :=
  match first with
  | [] => none
  | c :: _ =>
    some [first ++ ['.'] ++ last ++ ['@'] ++ domain,
          first ++ ['_'] ++ last ++ ['@'] ++ domain,
          [c] ++ last ++ ['@'] ++ domain,
          first ++ ['@'] ++ domain,
          last ++ ['@'] ++ domain]

/-- One iteration of the loop body of `validate_email_for_formats`
(src/app.py lines 54-58) for a single candidate: extract the domain, test
`domain_name and is_domain_valid(domain_name)` (Python truthiness: `None`
and the empty string are falsy and short-circuit), then probe the mailbox.
`.ok true` means the candidate is accepted, `.ok false` means the loop
moves on, `.error` means an exception escapes `is_domain_valid`. -/
def check_candidate (dns : DnsEnv) (smtp : SmtpEnv) (email : Str) : Except PyErr Bool :=
  match extract_domain email with
  | none => .ok false
  | some d =>
    if d = [] then .ok false
    else
      match is_domain_valid dns d with
      | .error e => .error e
      | .ok false => .ok false
      | .ok true => .ok (is_email_valid dns smtp email d)

/-- `true` when the candidate is the one the loop would accept. -/
def candidate_passes (dns : DnsEnv) (smtp : SmtpEnv) (email : Str) : Bool :=
  match check_candidate dns smtp email with
  | .ok true => true
  | _ => false

/-- `true` when processing the candidate raises no exception. -/
def candidate_no_raise (dns : DnsEnv) (smtp : SmtpEnv) (email : Str) : Bool :=
  match check_candidate dns smtp email with
  | .ok _ => true
  | .error _ => false

/-- The `for email in email_formats` loop of `validate_email_for_formats`
(src/app.py lines 54-59): first accepted candidate wins, exceptions
propagate, exhaustion yields `(None, False)`. -/
def validate_loop (dns : DnsEnv) (smtp : SmtpEnv) : List Str → Except PyErr (Option Str × Bool)
  | [] => .ok (none, false)
  | e :: rest =>
    match check_candidate dns smtp e with
    | .error err => .error err
    | .ok true => .ok (some e, true)
    | .ok false => validate_loop dns smtp rest

/-- `validate_email_for_formats` (src/app.py lines 51-59). -/
def validate_email_for_formats (dns : DnsEnv) (smtp : SmtpEnv)
    (first last domain : Str) : Except PyErr (Option Str × Bool) :=
  match generate_email_formats first last domain with
  | none => .error .indexError
  | some fmts => validate_loop dns smtp fmts

/-- One input row: the `first`, `last` and `domain` columns. -/
structure Person where
  first : Str
  last : Str
  domain : Str
  deriving DecidableEq

/-- One output row of the results table. -/
structure RowResult where
  email : Option Str
  domain : Str
  domain_valid : Bool
  email_valid : Bool
  deriving DecidableEq

/-- The row-assembly step of `validate_emails` (src/app.py lines 71-74):
`if email and is_valid` (Python truthiness again: `None` and the empty
string are falsy) selects between the success row, with the email
lower-cased, and the failure row. -/
def mk_row (domain : Str) (r : Option Str × Bool) : RowResult :=
  match r with
  | (some e, true) =>
    if e = [] then ⟨none, domain, false, false⟩
    else ⟨some (e.map Char.toLower), domain, true, true⟩
  | _ => ⟨none, domain, false, false⟩

/-- `validate_emails` (src/app.py lines 61-75): one result row per input
row, in input order; an exception escaping a row's validation aborts the
batch. -/
def validate_emails (dns : DnsEnv) (smtp : SmtpEnv) : List Person → Except PyErr (List RowResult)
  | [] => .ok []
  | p :: ps =>
    match validate_email_for_formats dns smtp p.first p.last p.domain with
    | .error e => .error e
    | .ok r =>
      match validate_emails dns smtp ps with
      | .error e => .error e
      | .ok rest => .ok (mk_row p.domain r :: rest)

/-- `true` when a whole row is processed without an exception escaping. -/
def row_no_raise (dns : DnsEnv) (smtp : SmtpEnv) (p : Person) : Bool :=
  match validate_email_for_formats dns smtp p.first p.last p.domain with
  | .ok _ => true
  | .error _ => false

/-- The result row the orchestrator builds for one person, assuming the
row's validation returned normally. -/
def row_value (dns : DnsEnv) (smtp : SmtpEnv) (p : Person) : RowResult :=
  mk_row p.domain
    ((validate_email_for_formats dns smtp p.first p.last p.domain).toOption.getD (none, false))

/-- DNS environment answering every query with a single MX record. -/
def dnsOneMx : DnsEnv := fun _ => .records ["mx.x.com".data]

/-- DNS environment answering every query with `NoAnswer`. -/
def dnsNoAnswerEnv : DnsEnv := fun _ => .noAnswer

/-- DNS environment where only `x.com` resolves; other domains get `NoAnswer`. -/
def dnsOnlyX : DnsEnv := fun d =>
  if d = ("x.com".data) then .records ["mx.x.com".data] else .noAnswer

/-- SMTP environment where every step fails. -/
def smtpDeadEnv : SmtpEnv := fun _ _ => ⟨false, false, false, none, false⟩

/-- SMTP environment accepting every recipient with a clean teardown. -/
def smtpAcceptAll : SmtpEnv := fun _ _ => ⟨true, true, true, some 250, true⟩

/-- SMTP environment that answers 250 to every RCPT but fails on QUIT. -/
def smtpQuitFails : SmtpEnv := fun _ _ => ⟨true, true, true, some 250, false⟩

/-- SMTP environment accepting exactly the address `jdoe@x.com` (the
third-format candidate for first `j`, last `doe`, domain `x.com`) and
answering 550 to every other RCPT. -/
def smtpOnlyJdoe : SmtpEnv := fun _ email =>
  ⟨true, true, true, some (if email = ("jdoe@x.com".data) then 250 else 550), true⟩

/-- Row whose domain does not resolve. -/
def personW : Person := ⟨"a".data, "b".data, "x.com".data⟩

/-- The failure row the orchestrator produces for `personW` under
`dnsNoAnswerEnv`. -/
def rowW : RowResult := ⟨none, "x.com".data, false, false⟩

/-- Row whose first candidate is accepted (mixed-case names, to exercise
lower-casing). -/
def personJo : Person := ⟨"Jo".data, "Do".data, "x.com".data⟩

/-- Row whose domain never resolves under `dnsOnlyX`. -/
def personBad : Person := ⟨"a".data, "b".data, "bad.com".data⟩

/-! ## Helper lemmas -/

theorem char_toLower_isUpper (c : Char) : (Char.toLower c).isUpper = false := by
  have hval : ∀ n, n.isValidChar → (Char.ofNat n).toNat = n := by
    intro n h
    simp [Char.ofNat, h, Char.ofNatAux, Char.toNat, UInt32.toNat, BitVec.toNat_ofNatLt]
  have hiu : ∀ d : Char, d.isUpper = (decide (65 ≤ d.toNat) && decide (d.toNat ≤ 90)) := by
    intro d
    simp only [Char.isUpper, Char.toNat, ge_iff_le, UInt32.le_def]
    rfl
  rw [hiu]
  by_cases h : c.toNat ≥ 65 ∧ c.toNat ≤ 90
  · have hv : (c.toNat + 32).isValidChar := by
      left
      omega
    rw [Char.toLower]
    simp only [h, and_self, if_true, ge_iff_le]
    rw [hval _ hv]
    have h90 : ¬ (c.toNat + 32 ≤ 90) := by omega
    simp [h90]
  · rw [Char.toLower, if_neg h]
    rcases Nat.lt_or_ge c.toNat 65 with h1 | h1
    · simp [Nat.not_le.mpr h1]
    · rcases Nat.lt_or_ge 90 c.toNat with h2 | h2
      · simp [Nat.not_le.mpr h2]
      · exact absurd ⟨h1, h2⟩ h

theorem pySplit_not_mem (sep : Char) (s : Str) (h : sep ∉ s) : pySplit sep s = [s] := by
  induction s with
  | nil => rfl
  | cons c cs ih =>
    rw [List.mem_cons, not_or] at h
    simp only [pySplit]
    rw [if_neg (fun hc => h.1 hc.symm), ih h.2]

theorem pySplit_append (sep : Char) (t u : Str) (h : sep ∉ t) :
    pySplit sep (t ++ sep :: u) = t :: pySplit sep u := by
  induction t with
  | nil => simp [pySplit]
  | cons c cs ih =>
    rw [List.mem_cons, not_or] at h
    have hcons : (c :: cs) ++ sep :: u = c :: (cs ++ sep :: u) := rfl
    rw [hcons]
    simp only [pySplit]
    rw [if_neg (fun hc => h.1 hc.symm), ih h.2]

theorem pySplit_ne_nil (sep : Char) (s : Str) : pySplit sep s ≠ [] := by
  cases s with
  | nil => simp [pySplit]
  | cons c cs =>
    simp only [pySplit]
    split
    · simp
    · split
      · simp
      · simp

theorem pySplit_head (sep : Char) (s : Str) :
    (pySplit sep s).head? = some (s.takeWhile (fun c => !(c == sep))) := by
  induction s with
  | nil => rfl
  | cons c cs ih =>
    by_cases hc : c = sep
    · subst hc
      simp [pySplit, List.takeWhile]
    · simp only [pySplit, if_neg hc]
      cases hsp : pySplit sep cs with
      | nil => exact absurd hsp (pySplit_ne_nil sep cs)
      | cons hd tl =>
        rw [hsp] at ih
        simp only [List.head?] at ih
        simp only [List.head?, List.takeWhile]
        have hb : (!(c == sep)) = true := by simp [hc]
        rw [hb]
        simp only [Option.some.injEq] at ih ⊢
        rw [ih]

/-! ## C4 — Domain Extractor -/

/-- C4 (amended): for every input string, `extract_domain` returns `none`
when no `@` is present; when at least one `@` is present it returns the
substring strictly between the first `@` and the next `@` or the end of
the string (the second field of the `@`-split), not the entire remainder.
In particular `extract_domain "a@b.com" = some "b.com"` and
`extract_domain "noat" = none`. -/
theorem extract_domain_between_ats (s : Str) :
    ('@' ∉ s → extract_domain s = none) ∧
    (∀ t u, s = t ++ '@' :: u → '@' ∉ t →
      extract_domain s = some (u.takeWhile (fun c => !(c == '@')))) := by
  constructor
  · intro h
    unfold extract_domain
    rw [pySplit_not_mem '@' s h]
    rfl
  · intro t u hs ht
    subst hs
    unfold extract_domain
    rw [pySplit_append '@' t u ht, List.getElem?_cons_succ, ← List.head?_eq_getElem?]
    exact pySplit_head '@' u

/-- C4 witness: the two anchor examples of the spec, obtained from the
amended theorem at concrete inputs. -/
theorem extract_domain_between_ats_witness :
    extract_domain ("a@b.com".data) = some ("b.com".data) ∧
    extract_domain ("noat".data) = none := by
  constructor
  · have h := (extract_domain_between_ats ("a@b.com".data)).2 ("a".data) ("b.com".data)
      (by decide) (by decide)
    exact h.trans (by decide)
  · exact (extract_domain_between_ats ("noat".data)).1 (by decide)

/-- C4 counterexample: on `"a@b@c"` the extractor does not return the
entire substring `"b@c"` after the first `@`; it returns only `"b"`. -/
theorem extract_domain_multi_at :
    extract_domain ("a@b@c".data) ≠ some ("b@c".data) ∧
    extract_domain ("a@b@c".data) = some ("b".data) := by
  exact ⟨by decide, by decide⟩

/-! ## C10 — trailing-`@` candidates -/

/-- C10 (amended): for every input string whose first `@` is its final
character, the extractor returns the empty string (not `none`), and the
Row Validator's per-candidate check rejects the candidate without
consulting DNS or SMTP at all — `check_candidate` returns `.ok false` for
every environment, so the candidate is never domain-validated or probed. -/
theorem trailing_at_candidate_skipped (t : Str) (h : '@' ∉ t) :
    extract_domain (t ++ ['@']) = some [] ∧
    ∀ dns smtp, check_candidate dns smtp (t ++ ['@']) = .ok false := by
  have he : extract_domain (t ++ ['@']) = some [] := by
    show extract_domain (t ++ '@' :: []) = some []
    unfold extract_domain
    rw [pySplit_append '@' t [] h, List.getElem?_cons_succ, ← List.head?_eq_getElem?]
    rfl
  refine ⟨he, fun dns smtp => ?_⟩
  unfold check_candidate
  rw [he]
  simp

/-- C10 witness: `"a@"`, even under a DNS environment that would raise
and a dead SMTP server, is skipped with `.ok false`. -/
theorem trailing_at_candidate_skipped_witness :
    extract_domain ("a".data ++ ['@']) = some [] ∧
    check_candidate (fun _ => DnsOutcome.otherError) smtpDeadEnv ("a".data ++ ['@']) = .ok false :=
  ⟨(trailing_at_candidate_skipped ("a".data) (by decide)).1,
   (trailing_at_candidate_skipped ("a".data) (by decide)).2 _ _⟩

/-- C10 counterexample: `"a@b@"` ends with `@`, yet the extractor returns
`"b"` (not the empty string), and the candidate IS domain-validated: with
a DNS environment whose fault is uncaught, `check_candidate` raises,
proving the DNS lookup was attempted. -/
theorem trailing_at_but_probed :
    extract_domain ("a@b@".data) = some ("b".data) ∧
    some ("b".data) ≠ some ([] : Str) ∧
    check_candidate (fun _ => DnsOutcome.otherError) smtpDeadEnv ("a@b@".data) =
      .error PyErr.dnsError := by
  refine ⟨by decide, by decide, rfl⟩

/-! ## C3 — Candidate Generator error conditions -/

/-- C3 (amended): the Candidate Generator raises `IndexError` when `first`
is the empty string (from `first[0]`); for every input with `first`
non-empty — including an empty `last` or `domain` — it returns five
strings without raising. -/
theorem generate_email_formats_total (first last domain : Str) :
    (first = [] → generate_email_formats first last domain = none) ∧
    (first ≠ [] → ∃ fmts, generate_email_formats first last domain = some fmts ∧
      fmts.length = 5) := by
  constructor
  · intro h
    subst h
    rfl
  · intro h
    cases first with
    | nil => exact absurd rfl h
    | cons c f => exact ⟨_, rfl, rfl⟩

/-- C3 witness: a one-letter `first` with empty `last` and `domain` still
yields a result. -/
theorem generate_email_formats_total_witness :
    (generate_email_formats ("a".data) [] []).isSome = true := by
  obtain ⟨fmts, hf, _⟩ := (generate_email_formats_total ("a".data) [] []).2 (by decide)
  rw [hf]
  rfl

/-- C3 counterexample: with `first = ""` the generator raises `IndexError`
(modelled as `none`) instead of returning five strings. -/
theorem generate_email_formats_empty_first_raises :
    generate_email_formats [] ("doe".data) ("x.com".data) = none := rfl

/-! ## C2 — Candidate Generator output -/

/-- C2: for all non-empty `first`, `last`, `domain` (the contract's
precondition), the generator returns exactly the five candidates in the
fixed order `first.last@domain`, `first_last@domain`,
`first-initial+last@domain`, `first@domain`, `last@domain`, and each of
the five ends with the literal suffix `@` followed by `domain`. -/
theorem generate_email_formats_fixed_order (first last domain : Str)
    (h1 : first ≠ []) (h2 : last ≠ []) (h3 : domain ≠ []) :
    generate_email_formats first last domain =
      some [first ++ ['.'] ++ last ++ ['@'] ++ domain,
            first ++ ['_'] ++ last ++ ['@'] ++ domain,
            first.take 1 ++ last ++ ['@'] ++ domain,
            first ++ ['@'] ++ domain,
            last ++ ['@'] ++ domain] ∧
    ∀ fmts, generate_email_formats first last domain = some fmts →
      fmts.length = 5 ∧ ∀ e ∈ fmts, List.IsSuffix ('@' :: domain) e := by
  cases first with
  | nil => exact absurd rfl h1
  | cons c f =>
    constructor
    · rfl
    · intro fmts hf
      rw [generate_email_formats] at hf
      injection hf with hf
      subst hf
      refine ⟨rfl, ?_⟩
      intro e he
      simp only [List.mem_cons, List.not_mem_nil, or_false] at he
      rcases he with rfl | rfl | rfl | rfl | rfl
      · exact ⟨(c :: f) ++ ['.'] ++ last, by simp⟩
      · exact ⟨(c :: f) ++ ['_'] ++ last, by simp⟩
      · exact ⟨[c] ++ last, by simp⟩
      · exact ⟨c :: f, by simp⟩
      · exact ⟨last, by simp⟩

/-- C2 witness: the five candidates for (jane, doe, x.com). -/
theorem generate_email_formats_fixed_order_witness :
    generate_email_formats ("jane".data) ("doe".data) ("x.com".data) =
      some ["jane.doe@x.com".data, "jane_doe@x.com".data, "jdoe@x.com".data,
            "jane@x.com".data, "doe@x.com".data] := by
  have h := (generate_email_formats_fixed_order ("jane".data) ("doe".data) ("x.com".data)
    (by decide) (by decide) (by decide)).1
  exact h.trans (by decide)

/-! ## C5 — Domain Validator error handling -/

/-- C5 (amended): the Domain Validator returns true exactly when at least
one MX record is returned; it returns false (rather than raising) for the
three faults named in its `except` clause — no-MX (`NoAnswer`),
nonexistent domain (`NXDOMAIN`) and timeout (`LifetimeTimeout`) — but any
other DNS-layer fault (such as `NoNameservers`) is NOT caught and
propagates to the caller as an exception. -/
theorem is_domain_valid_outcomes (dns : DnsEnv) (d : Str) :
    (is_domain_valid dns d = .ok true ↔ ∃ mxs, dns d = .records mxs ∧ mxs ≠ []) ∧
    ((dns d = .noAnswer ∨ dns d = .nxdomain ∨ dns d = .lifetimeTimeout ∨
        dns d = .records []) → is_domain_valid dns d = .ok false) ∧
    (dns d = .otherError → is_domain_valid dns d = .error PyErr.dnsError) := by
  refine ⟨?_, ?_, ?_⟩
  · cases hd : dns d <;> simp [is_domain_valid, hd]
  · rintro (h | h | h | h) <;> simp [is_domain_valid, h]
  · intro h
    simp [is_domain_valid, h]

/-- C5 witness: a `NoAnswer` fault is converted to `False`. -/
theorem is_domain_valid_outcomes_witness :
    is_domain_valid dnsNoAnswerEnv ("x.com".data) = .ok false :=
  (is_domain_valid_outcomes dnsNoAnswerEnv ("x.com".data)).2.1 (Or.inl rfl)

/-- C5 counterexample: under a DNS environment reporting a fault outside
the caught tuple (for example `NoNameservers`), the validator raises
instead of returning false, contradicting "returns false for every
DNS-layer fault whatsoever". -/
theorem is_domain_valid_uncaught_fault :
    is_domain_valid (fun _ => DnsOutcome.otherError) ("x.com".data) = .error PyErr.dnsError ∧
    is_domain_valid (fun _ => DnsOutcome.otherError) ("x.com".data) ≠ .ok false :=
  ⟨rfl, fun h => Except.noConfusion h⟩

/-! ## C6 — Mailbox Prober outcome -/

/-- C6 (amended): the Mailbox Prober returns true iff its own MX
resolution answers with at least one record and, against the first
exchange, connect, HELO and MAIL all succeed, the RCPT reply code is 250,
AND the closing QUIT also succeeds; any other reply code and any failure
at any step — DNS, connect, handshake, interpretation, or teardown —
makes the probe return false, never raising to the caller (the model's
return type is `Bool`, reflecting the blanket `except Exception`). -/
theorem is_email_valid_outcome (dns : DnsEnv) (smtp : SmtpEnv) (email domain : Str) :
    is_email_valid dns smtp email domain = true ↔
      ∃ mx rest, dns domain = .records (mx :: rest) ∧
        (smtp mx email).connectOk = true ∧ (smtp mx email).heloOk = true ∧
        (smtp mx email).mailOk = true ∧ (smtp mx email).rcptResult = some 250 ∧
        (smtp mx email).quitOk = true := by
  cases hd : dns domain with
  | records mxs =>
    cases mxs with
    | nil => simp [is_email_valid, hd]
    | cons mx rest =>
      cases hs : smtp mx email with
      | mk co he ma rc qu =>
        cases co <;> cases he <;> cases ma <;> cases qu <;> cases rc <;>
          simp_all [is_email_valid, hd, hs]
  | noAnswer => simp [is_email_valid, hd]
  | nxdomain => simp [is_email_valid, hd]
  | lifetimeTimeout => simp [is_email_valid, hd]
  | otherError => simp [is_email_valid, hd]

/-- C6 counterexample: a session whose RCPT reply is 250 but whose QUIT
fails makes the probe return false, refuting "returns true if and only if
the server's response code to the RCPT command is 250". -/
theorem rcpt_250_yet_probe_fails :
    (smtpQuitFails ("mx.x.com".data) ("bob@y.com".data)).rcptResult = some 250 ∧
    is_email_valid dnsOneMx smtpQuitFails ("bob@y.com".data) ("y.com".data) = false :=
  ⟨rfl, by decide⟩

/-! ## C7 — teardown failure -/

/-- C7 (amended): a failure during session teardown DOES change the
already-determined result: when the RCPT command returned code 250 but
QUIT fails, the prober returns false, because `server.quit()` runs inside
the `try` block before the `return` and its exception is caught by the
blanket `except`. -/
theorem quit_failure_flips_result (dns : DnsEnv) (smtp : SmtpEnv)
    (email domain mx : Str) (rest : List Str)
    (hd : dns domain = .records (mx :: rest))
    (hr : (smtp mx email).rcptResult = some 250)
    (hq : (smtp mx email).quitOk = false) :
    is_email_valid dns smtp email domain = false := by
  simp [is_email_valid, hd, hr, hq]

/-- C7 witness: a concrete session with RCPT 250 and failing QUIT. -/
theorem quit_failure_flips_result_witness :
    is_email_valid dnsOneMx smtpQuitFails ("a@x.com".data) ("x.com".data) = false :=
  quit_failure_flips_result dnsOneMx smtpQuitFails ("a@x.com".data) ("x.com".data)
    ("mx.x.com".data) [] rfl rfl rfl

/-- C7 counterexample: RCPT answered 250, QUIT fails, and the prober does
not return true — refuting "the prober returns true even when closing the
session fails". -/
theorem teardown_failure_changes_result :
    (smtpQuitFails ("mx.x.com".data) ("jane.doe@x.com".data)).rcptResult = some 250 ∧
    is_email_valid dnsOneMx smtpQuitFails ("jane.doe@x.com".data) ("x.com".data) ≠ true :=
  ⟨rfl, by decide⟩

/-! ## C1 — Row Validator first-match policy -/

theorem validate_loop_find (dns : DnsEnv) (smtp : SmtpEnv) (l : List Str)
    (h : ∀ e ∈ l, candidate_no_raise dns smtp e = true) :
    validate_loop dns smtp l =
      .ok (match l.find? (candidate_passes dns smtp) with
           | some e => (some e, true)
           | none => (none, false)) := by
  induction l with
  | nil => rfl
  | cons e rest ih =>
    have he := h e (List.mem_cons_self e rest)
    unfold candidate_no_raise at he
    cases hc : check_candidate dns smtp e with
    | error err =>
      rw [hc] at he
      simp at he
    | ok b =>
      cases b with
      | true =>
        have hp : candidate_passes dns smtp e = true := by
          unfold candidate_passes
          rw [hc]
        simp only [validate_loop, hc, List.find?_cons_of_pos _ hp]
      | false =>
        have hp : candidate_passes dns smtp e = false := by
          unfold candidate_passes
          rw [hc]
        have hneg : ¬ (candidate_passes dns smtp e = true) := by simp [hp]
        simp only [validate_loop, hc, List.find?_cons_of_neg _ hneg]
        exact ih (fun x hx => h x (List.mem_cons_of_mem _ hx))

/-- C1: given the five generated candidates, the Row Validator tries them
in generation order and returns `(email, true)` for the first candidate
whose check (truthy extracted domain, valid domain, successful mailbox
probe — `candidate_passes`) succeeds, trying no further candidates (the
`List.find?` first-match semantics); if none of the five succeeds it
returns `(none, false)`.  Hypotheses: generation succeeded and no
candidate's domain check raises an uncaught DNS exception. -/
theorem validate_email_for_formats_first_match (dns : DnsEnv) (smtp : SmtpEnv)
    (first last domain : Str) (fmts : List Str)
    (hg : generate_email_formats first last domain = some fmts)
    (h : ∀ e ∈ fmts, candidate_no_raise dns smtp e = true) :
    validate_email_for_formats dns smtp first last domain =
      .ok (match fmts.find? (candidate_passes dns smtp) with
           | some e => (some e, true)
           | none => (none, false)) := by
  unfold validate_email_for_formats
  rw [hg]
  exact validate_loop_find dns smtp fmts h

/-- C1 witness: the spec's short-circuit scenario — a server accepting only
the third-format candidate `jdoe@x.com`; the Row Validator returns exactly
that candidate with `true`. -/
theorem validate_email_for_formats_first_match_witness :
    validate_email_for_formats dnsOnlyX smtpOnlyJdoe ("j".data) ("doe".data) ("x.com".data) =
      .ok (some ("jdoe@x.com".data), true) := by
  have h := validate_email_for_formats_first_match dnsOnlyX smtpOnlyJdoe
    ("j".data) ("doe".data) ("x.com".data)
    ["j.doe@x.com".data, "j_doe@x.com".data, "jdoe@x.com".data,
     "j@x.com".data, "doe@x.com".data]
    (by decide) (by decide)
  exact h.trans rfl

/-! ## C8 — Row Result invariant -/

theorem mk_row_invariant (d : Str) (r0 : Option Str × Bool) :
    ((mk_row d r0).email ≠ none ↔
      ((mk_row d r0).domain_valid = true ∧ (mk_row d r0).email_valid = true)) := by
  rcases r0 with ⟨eo, v⟩
  cases eo with
  | none => cases v <;> simp [mk_row]
  | some e =>
    cases v with
    | false => simp [mk_row]
    | true =>
      by_cases he : e = []
      · simp [mk_row, he]
      · simp [mk_row, he]

/-- C8: every Row Result produced by the Batch Orchestrator has a non-null
email field exactly when both its Domain Valid and Email Valid fields are
true. -/
theorem row_result_invariant (dns : DnsEnv) (smtp : SmtpEnv) (ps : List Person)
    (rs : List RowResult) (h : validate_emails dns smtp ps = .ok rs) :
    ∀ r ∈ rs, (r.email ≠ none ↔ (r.domain_valid = true ∧ r.email_valid = true)) := by
  induction ps generalizing rs with
  | nil =>
    simp only [validate_emails] at h
    injection h with h
    subst h
    intro r hr
    simp at hr
  | cons p ps ih =>
    simp only [validate_emails] at h
    cases hv : validate_email_for_formats dns smtp p.first p.last p.domain with
    | error e =>
      rw [hv] at h
      simp at h
    | ok r0 =>
      rw [hv] at h
      cases hrec : validate_emails dns smtp ps with
      | error e =>
        rw [hrec] at h
        simp at h
      | ok rest =>
        rw [hrec] at h
        injection h with h
        subst h
        intro r hr
        rcases List.mem_cons.mp hr with hr1 | hr2
        · rw [hr1]
          exact mk_row_invariant p.domain r0
        · exact ih rest hrec r hr2

/-- C8 witness: a concrete one-row batch whose domain fails MX resolution;
the invariant holds on the produced row. -/
theorem row_result_invariant_witness :
    (rowW.email ≠ none ↔ (rowW.domain_valid = true ∧ rowW.email_valid = true)) :=
  row_result_invariant dnsNoAnswerEnv smtpDeadEnv [personW] [rowW] rfl rowW
    (List.mem_singleton.mpr rfl)

/-! ## C9 — Batch Orchestrator order and lower-casing -/

theorem validate_emails_map (dns : DnsEnv) (smtp : SmtpEnv) : ∀ (ps : List Person),
    (∀ p ∈ ps, row_no_raise dns smtp p = true) →
    validate_emails dns smtp ps = .ok (ps.map (row_value dns smtp)) := by
  intro ps
  induction ps with
  | nil => intro _; rfl
  | cons p ps ih =>
    intro h
    have hp := h p (List.mem_cons_self p ps)
    unfold row_no_raise at hp
    cases hv : validate_email_for_formats dns smtp p.first p.last p.domain with
    | error e =>
      rw [hv] at hp
      simp at hp
    | ok r0 =>
      simp only [validate_emails, hv, List.map_cons]
      rw [ih (fun q hq => h q (List.mem_cons_of_mem _ hq))]
      have hrow : row_value dns smtp p = mk_row p.domain r0 := by
        unfold row_value
        rw [hv]
        rfl
      rw [hrow]

theorem mk_row_email_lower (d : Str) (r0 : Option Str × Bool) (e : Str)
    (h : (mk_row d r0).email = some e) : ∀ c ∈ e, c.isUpper = false := by
  rcases r0 with ⟨eo, v⟩
  cases eo with
  | none => cases v <;> simp [mk_row] at h
  | some e0 =>
    cases v with
    | false => simp [mk_row] at h
    | true =>
      by_cases he : e0 = []
      · simp [mk_row, he] at h
      · simp only [mk_row, if_neg he] at h
        injection h with h
        subst h
        intro c hc
        rcases List.mem_map.mp hc with ⟨c0, _, rfl⟩
        exact char_toLower_isUpper c0

/-- C9: for every ordered input sequence whose rows validate without an
escaping exception, the Batch Orchestrator produces exactly the map of the
per-row result over the inputs — one Row Result per input row, in input
order — and every matched email in the output is lower-cased (contains no
upper-case letter). -/
theorem validate_emails_ordered (dns : DnsEnv) (smtp : SmtpEnv) (ps : List Person)
    (h : ∀ p ∈ ps, row_no_raise dns smtp p = true) :
    validate_emails dns smtp ps = .ok (ps.map (row_value dns smtp)) ∧
    (ps.map (row_value dns smtp)).length = ps.length ∧
    ∀ r ∈ ps.map (row_value dns smtp), ∀ e, r.email = some e →
      ∀ c ∈ e, c.isUpper = false := by
  refine ⟨validate_emails_map dns smtp ps h, List.length_map ps _, ?_⟩
  intro r hr e he
  rcases List.mem_map.mp hr with ⟨p, _, rfl⟩
  unfold row_value at he
  exact mk_row_email_lower p.domain _ e he

/-- C9 witness: a two-row batch where the first row succeeds (with a
mixed-case name that comes back lower-cased) and the second fails; the
output has one row per input, in input order. -/
theorem validate_emails_ordered_witness :
    validate_emails dnsOnlyX smtpAcceptAll [personJo, personBad] =
      .ok [⟨some ("jo.do@x.com".data), "x.com".data, true, true⟩,
           ⟨none, "bad.com".data, false, false⟩] := by
  have h := (validate_emails_ordered dnsOnlyX smtpAcceptAll [personJo, personBad]
    (by decide)).1
  exact h.trans rfl
